import Mathlib

/-!
Verification of the selective re-identification tracker of the
`yep-hackathon` repository against its natural-language specification.

The embedding translates, over exact rational arithmetic:
* `app/service/selective_tracker.py`: `calculate_iou`,
  `match_bbox_to_detections`, `hybrid_rematch` and the per-frame
  three-pass loop of `run_selective_tracking`;
* `app/service/color_histogram.py`: `crop_bbox_from_frame`,
  `extract_color_histogram`, `update_histogram_ema`;
* `app/service/person_tracker.py`: `calculate_output_size`.

External numerics that the core merely consumes (YOLO detections, the
BGR→HSV colour conversion, `cv2.compareHist`, floating-point `sqrt`)
are modelled as explicit inputs: a frame is given by its detections
together with the histogram the appearance model would extract from
each crop, and `hybrid_rematch` is parameterised by the square-root
and histogram-comparison functions.  Every theorem below holds for all
such inputs, so nothing depends on the numeric behaviour of the
external libraries.
-/

namespace SelectiveTracker

/-- Axis-aligned rectangle `{x1, y1, x2, y2}` in pixel coordinates. -/
structure Box where
  x1 : ℚ
  y1 : ℚ
  x2 : ℚ
  y2 : ℚ
deriving DecidableEq, Repr

/-- One detector output: a bounding box and an optional track identifier,
mirroring the dicts built from the YOLO result in `run_selective_tracking`. -/
structure Detection where
  bbox : Box
  trackId : Option ℤ
deriving DecidableEq, Repr

/-- Python `int()` applied to an exact rational: truncation toward zero. -/
def pyInt (q : ℚ) : ℤ :=
  if q < 0 then -⌊-q⌋ else ⌊q⌋

/-- The run stores detection boxes after casting each coordinate with
`int(...)`; `intBox` performs that coordinate-wise truncation. -/
def intBox (b : Box) : Box :=
  ⟨(pyInt b.x1 : ℤ), (pyInt b.y1 : ℤ), (pyInt b.x2 : ℤ), (pyInt b.y2 : ℤ)⟩

/-- `max(0, x2-x1) * max(0, y2-y1)` of the clipped overlap rectangle,
as computed inside `calculate_iou`. -/
def interArea (b1 b2 : Box) : ℚ :=
  max 0 (min b1.x2 b2.x2 - max b1.x1 b2.x1) *
    max 0 (min b1.y2 b2.y2 - max b1.y1 b2.y1)

/-- `(x2-x1)*(y2-y1)`, the (signed) area of a box. -/
def boxArea (b : Box) : ℚ :=
  (b.x2 - b.x1) * (b.y2 - b.y1)

/-- `area1 + area2 - intersection`, as in `calculate_iou`. -/
def unionArea (b1 b2 : Box) : ℚ :=
  boxArea b1 + boxArea b2 - interArea b1 b2

/-- `calculate_iou`: intersection over union, `0` when the union is not
positive. -/
def calculate_iou (b1 b2 : Box) : ℚ :=
  if unionArea b1 b2 > 0 then interArea b1 b2 / unionArea b1 b2 else 0

/-- A well-formed rectangle: `x1 < x2` and `y1 < y2`. -/
def WellFormed (b : Box) : Prop :=
  b.x1 < b.x2 ∧ b.y1 < b.y2

/-- Two rectangles are disjoint when their interiors cannot overlap on
some axis. -/
def DisjointBoxes (b1 b2 : Box) : Prop :=
  b1.x2 ≤ b2.x1 ∨ b2.x2 ≤ b1.x1 ∨ b1.y2 ≤ b2.y1 ∨ b2.y2 ≤ b1.y1

/-- `match_bbox_to_detections`: index of the detection maximizing IOU
against `target`, provided that best IOU reaches `iou_threshold`;
ties are broken by the strictly-greater test, so the first detection
attaining the best IOU wins. -/
def match_bbox_to_detections (target : Box) (detections : List Detection)
    (iouThr : ℚ) : Option ℕ :=
  (detections.enum.foldl
    (fun (acc : ℚ × Option ℕ) p =>
      let iou := calculate_iou target p.2.bbox
      if iou > acc.1 ∧ iou ≥ iouThr then (iou, some p.1) else acc)
    (0, none)).2

/-- `update_histogram_ema`: elementwise `(1-alpha)·ref + alpha·new`. -/
def update_histogram_ema (ref new : List ℚ) (alpha : ℚ) : List ℚ :=
  List.zipWith (fun r n => (1 - alpha) * r + alpha * n) ref new

/-!  `color_histogram.py`.  A frame is modelled as its grid of pixels
after the BGR→HSV conversion, each pixel carrying its hue and
saturation value; the conversion itself is an external pixelwise map
that none of the specified properties depend on. -/

/-- One HSV pixel: hue (OpenCV range `[0,180)`) and saturation
(`[0,256)`). -/
structure Pixel where
  hue : ℚ
  sat : ℚ
deriving DecidableEq, Repr

/-- Python/numpy slice `l[a:b]`: a negative bound counts from the end
of the list. -/
def pySlice {α : Type} (l : List α) (a b : ℤ) : List α :=
  let n : ℤ := l.length
  let a2 : ℤ := if a < 0 then max 0 (n + a) else min a n
  let b2 : ℤ := if b < 0 then max 0 (n + b) else min b n
  (l.drop a2.toNat).take (b2 - a2).toNat

/-- `crop_bbox_from_frame` with the default `padding = 0`: clip the
bbox bounds to the frame and slice rows and columns. -/
def crop_bbox_from_frame (frame : List (List Pixel)) (bbox : Box) :
    List (List Pixel) :=
  let h : ℚ := frame.length
  let w : ℚ := (frame.headD []).length
  let x1p := pyInt (max 0 bbox.x1)
  let y1p := pyInt (max 0 bbox.y1)
  let x2p := pyInt (min w bbox.x2)
  let y2p := pyInt (min h bbox.y2)
  (pySlice frame y1p y2p).map (fun row => pySlice row x1p x2p)

/-- Number of pixels in a crop (`cropped.size` for the purposes of the
`== 0` test). -/
def cropSize (rows : List (List Pixel)) : ℕ :=
  (rows.map List.length).sum

/-- `cv2.calcHist` on one channel: per-bin pixel counts over the value
range `[0, hi)` split into `bins` equal cells. -/
def calcHist (value : Pixel → ℚ) (hi : ℚ) (bins : ℕ)
    (pixels : List Pixel) : List ℕ :=
  (List.range bins).map (fun (i : ℕ) =>
    (pixels.filter (fun p =>
      ((i : ℚ) * hi) / (bins : ℚ) ≤ value p ∧
        value p < (((i : ℚ) + 1) * hi) / (bins : ℚ))).length)

/-- `cv2.normalize(_, _, 0, 1, NORM_MINMAX)`: affine rescale of the
counts onto `[0,1]`; when all counts coincide OpenCV uses scale `0`,
producing the all-zero vector. -/
def normalizeMinMax (l : List ℕ) : List ℚ :=
  if l.foldl min (l.headD 0) < l.foldl max 0 then
    l.map (fun (v : ℕ) => ((v : ℚ) - ((l.foldl min (l.headD 0) : ℕ) : ℚ)) /
      (((l.foldl max 0 : ℕ) : ℚ) - ((l.foldl min (l.headD 0) : ℕ) : ℚ)))
  else l.map (fun _ => (0 : ℚ))

/-- `np.clip(_, 0, 1)` on one entry. -/
def clip01 (q : ℚ) : ℚ := max 0 (min 1 q)

/-- `extract_color_histogram`: crop, return zeros on an empty crop,
otherwise drop a 20%/10% border, histogram hue and saturation
separately, min–max normalize, clip and concatenate. -/
def extract_color_histogram (frame : List (List Pixel)) (bbox : Box)
    (binsH : ℕ := 50) (binsS : ℕ := 50) : List ℚ :=
  let cropped := crop_bbox_from_frame frame bbox
  if cropSize cropped = 0 then List.replicate (binsH + binsS) 0
  else
    let ch := cropped.length
    let cw := (cropped.headD []).length
    let marginX := cw / 5
    let marginY := ch / 10
    let r1 := marginY
    let r2 := max (marginY + 1) (ch - marginY)
    let c1 := marginX
    let c2 := max (marginX + 1) (cw - marginX)
    let center := (pySlice cropped r1 r2).map (fun row => pySlice row c1 c2)
    let pixels := center.flatten
    let histH := (normalizeMinMax (calcHist Pixel.hue 180 binsH pixels)).map clip01
    let histS := (normalizeMinMax (calcHist Pixel.sat 256 binsS pixels)).map clip01
    histH ++ histS

/-!  `hybrid_rematch`.  The square root used for the Euclidean centre
distance and the histogram comparison (`cv2.compareHist` with
`HISTCMP_CORREL`) are floating-point library calls; the embedding takes
them as function parameters `sqrtQ` and `cmpHist`, and the per-frame
crop appearance model as `extract : Box → List ℚ`.  The source also
skips a candidate when `extract_color_histogram` returns `None`, a
branch that can never fire since that function always returns a
vector. -/

/-- Centre of a box. -/
def boxCenter (b : Box) : ℚ × ℚ :=
  ((b.x1 + b.x2) / 2, (b.y1 + b.y2) / 2)

/-- Centre-to-centre distance of two boxes, through the supplied square
root. -/
def centerDist (sqrtQ : ℚ → ℚ) (a b : Box) : ℚ :=
  sqrtQ (((boxCenter b).1 - (boxCenter a).1) ^ 2 +
    ((boxCenter b).2 - (boxCenter a).2) ^ 2)

/-- The combined score `distance_weight*distance_score +
histogram_weight*histogram_score` a candidate box receives in
`hybrid_rematch`, for search radius `R`. -/
def hybridScoreOf (sqrtQ : ℚ → ℚ) (cmpHist : List ℚ → List ℚ → ℚ)
    (extract : Box → List ℚ) (lastBbox : Box) (ref : List ℚ)
    (R dw hw : ℚ) (b : Box) : ℚ :=
  dw * (if R > 0 then 1 - centerDist sqrtQ lastBbox b / R else 1) +
    hw * ((cmpHist ref (extract b) + 1) / 2)

/-- One iteration of the candidate loop of `hybrid_rematch`: skip
candidates without a track id, with an already-assigned track id, or
beyond the search radius; otherwise accept when the combined score
strictly beats the best so far and reaches the similarity threshold. -/
def hybridStep (sqrtQ : ℚ → ℚ) (cmpHist : List ℚ → List ℚ → ℚ)
    (extract : Box → List ℚ) (lastBbox : Box) (ref : List ℚ)
    (R : ℚ) (assigned : List (Option ℤ)) (simThr dw hw : ℚ)
    (acc : ℚ × Option (ℤ × Box × List ℚ)) (d : Detection) :
    ℚ × Option (ℤ × Box × List ℚ) :=
  match d.trackId with
  | none => acc
  | some t =>
    if some t ∈ assigned then acc
    else if centerDist sqrtQ lastBbox d.bbox > R then acc
    else
      let score := hybridScoreOf sqrtQ cmpHist extract lastBbox ref R dw hw d.bbox
      if score > acc.1 ∧ score ≥ simThr then (score, some (t, d.bbox, extract d.bbox))
      else acc

/-- `hybrid_rematch`: search radius `min(base_speed*frames_lost,
max_distance_cap)`, then the loop above over the current detections,
starting from best score `0` and no match. -/
def hybrid_rematch (sqrtQ : ℚ → ℚ) (cmpHist : List ℚ → List ℚ → ℚ)
    (extract : Box → List ℚ) (lastBbox : Box) (ref : List ℚ)
    (framesLost : ℕ) (detections : List Detection)
    (assigned : List (Option ℤ)) (baseSpeed maxDistanceCap simThr dw hw : ℚ) :
    Option (ℤ × Box × List ℚ) :=
  let R := min (baseSpeed * (framesLost : ℚ)) maxDistanceCap
  (detections.foldl
    (hybridStep sqrtQ cmpHist extract lastBbox ref R assigned simThr dw hw)
    (0, none)).2

/-!  The per-frame loop of `run_selective_tracking`.  The video decode
and YOLO invocation are external: a processed frame is given by the
detection list the adapter produced plus the appearance model
`extract : Box → List ℚ` for crops of that frame's image.  The
assignment exclusivity set (`assigned_track_ids`, a Python `set` that
is only ever tested for membership) is modelled as a list of optional
track ids with cons as insertion. -/

/-- One frame of input to the tracking loop. -/
structure FrameInput where
  dets : List Detection
  extract : Box → List ℚ

/-- One selected player of the selection record. -/
structure SelectedPlayer where
  selectionId : ℤ
  name : String
  initialBbox : Box

/-- The selection record: `{selection_frame, players}`. -/
structure SelectionData where
  selectionFrame : ℕ
  players : List SelectedPlayer

/-- Mutable per-player record of `run_selective_tracking`. -/
structure PlayerState where
  name : String
  selectionId : ℤ
  currentTrackId : Option ℤ
  lastBbox : Box
  referenceHistogram : Option (List ℚ)
  framesLost : ℕ
  frames : List (ℕ × Box)
  maxBbox : ℚ × ℚ
  missingFrames : List ℕ

/-- Initial state built from one selection entry. -/
def initState (p : SelectedPlayer) : PlayerState :=
  { name := p.name
    selectionId := p.selectionId
    currentTrackId := none
    lastBbox := p.initialBbox
    referenceHistogram := none
    framesLost := 0
    frames := []
    maxBbox := (0, 0)
    missingFrames := [] }

/-- `max_bbox` update: componentwise max with the box's width and
height. -/
def updateMaxBbox (mb : ℚ × ℚ) (b : Box) : ℚ × ℚ :=
  (max mb.1 (b.x2 - b.x1), max mb.2 (b.y2 - b.y1))

/-- Pass 1 for a single player: if it holds a track id, look for a
detection with that id; on a hit refresh the record (EMA of the
reference histogram only if one exists already) and claim the id; on a
miss drop the id and increment `frames_lost`. -/
def pass1One (alpha : ℚ) (dets : List Detection) (extract : Box → List ℚ)
    (i : ℕ) (assigned : List (Option ℤ)) (s : PlayerState) :
    PlayerState × List (Option ℤ) :=
  match s.currentTrackId with
  | none => (s, assigned)
  | some tid =>
    match dets.find? (fun d => d.trackId == some tid) with
    | some d =>
      let bb := intBox d.bbox
      ({ s with
          frames := s.frames ++ [(i, bb)]
          lastBbox := bb
          framesLost := 0
          referenceHistogram :=
            s.referenceHistogram.map (fun r => update_histogram_ema r (extract bb) alpha)
          maxBbox := updateMaxBbox s.maxBbox bb },
        some tid :: assigned)
    | none =>
      ({ s with currentTrackId := none, framesLost := s.framesLost + 1 }, assigned)

/-- Passes 2 and 3 for a single player (the second loop of the source,
which bootstraps players without a reference histogram by IOU — with
the hard-coded threshold `0.3` — and re-identifies the others through
`hybrid_rematch`).  On no acceptance at or after the selection frame,
`frames_lost` is incremented and the frame recorded as missing. -/
def pass2One (sqrtQ : ℚ → ℚ) (cmpHist : List ℚ → List ℚ → ℚ)
    (baseSpeed maxDistanceCap simThr alpha : ℚ) (selFrame : ℕ)
    (dets : List Detection) (extract : Box → List ℚ) (i : ℕ)
    (assigned : List (Option ℤ)) (s : PlayerState) :
    PlayerState × List (Option ℤ) :=
  match s.currentTrackId with
  | some _ => (s, assigned)
  | none =>
    match s.referenceHistogram with
    | none =>
      match match_bbox_to_detections s.lastBbox dets (3/10) with
      | none => (s, assigned)
      | some k =>
        match dets.get? k with
        | none => (s, assigned)
        | some d =>
          let bb := intBox d.bbox
          ({ s with
              currentTrackId := d.trackId
              lastBbox := bb
              frames := s.frames ++ [(i, bb)]
              framesLost := 0
              referenceHistogram := some (extract bb)
              maxBbox := updateMaxBbox s.maxBbox bb },
            d.trackId :: assigned)
    | some ref =>
      match hybrid_rematch sqrtQ cmpHist extract s.lastBbox ref s.framesLost
          dets assigned baseSpeed maxDistanceCap simThr (3/10) (7/10) with
      | some (tid, bb, h) =>
        ({ s with
            currentTrackId := some tid
            lastBbox := bb
            frames := s.frames ++ [(i, bb)]
            framesLost := 0
            referenceHistogram :=
              some (update_histogram_ema ref h (min 1 (alpha * (3/2))))
            maxBbox := updateMaxBbox s.maxBbox bb },
          some tid :: assigned)
      | none =>
        if selFrame ≤ i then
          ({ s with
              framesLost := s.framesLost + 1
              missingFrames := s.missingFrames ++ [i] }, assigned)
        else (s, assigned)

/-- Pass 1 over the whole player list in selection order, threading the
exclusivity set. -/
def runPass1 (alpha : ℚ) (dets : List Detection) (extract : Box → List ℚ)
    (i : ℕ) (assigned : List (Option ℤ)) :
    List PlayerState → List PlayerState × List (Option ℤ)
  | [] => ([], assigned)
  | s :: rest =>
    let r1 := pass1One alpha dets extract i assigned s
    let r2 := runPass1 alpha dets extract i r1.2 rest
    (r1.1 :: r2.1, r2.2)

/-- Passes 2/3 over the whole player list in selection order, threading
the exclusivity set. -/
def runPass2 (sqrtQ : ℚ → ℚ) (cmpHist : List ℚ → List ℚ → ℚ)
    (baseSpeed maxDistanceCap simThr alpha : ℚ) (selFrame : ℕ)
    (dets : List Detection) (extract : Box → List ℚ) (i : ℕ)
    (assigned : List (Option ℤ)) :
    List PlayerState → List PlayerState × List (Option ℤ)
  | [] => ([], assigned)
  | s :: rest =>
    let r1 := pass2One sqrtQ cmpHist baseSpeed maxDistanceCap simThr alpha
      selFrame dets extract i assigned s
    let r2 := runPass2 sqrtQ cmpHist baseSpeed maxDistanceCap simThr alpha
      selFrame dets extract i r1.2 rest
    (r1.1 :: r2.1, r2.2)

/-- One frame of the tracking loop: clear the exclusivity set, run
Pass 1 over all players, then Passes 2/3 over all players. -/
def processFrame (sqrtQ : ℚ → ℚ) (cmpHist : List ℚ → List ℚ → ℚ)
    (baseSpeed maxDistanceCap simThr alpha : ℚ) (selFrame : ℕ)
    (i : ℕ) (fi : FrameInput) (states : List PlayerState) : List PlayerState :=
  let p1 := runPass1 alpha fi.dets fi.extract i [] states
  (runPass2 sqrtQ cmpHist baseSpeed maxDistanceCap simThr alpha selFrame
    fi.dets fi.extract i p1.2 p1.1).1

/-- The per-frame step of one player in isolation: its Pass-1 update
followed by its Pass-2/3 update, for the exclusivity sets the
surrounding loop happens to supply at each of the two moments. -/
def playerFrameStep (sqrtQ : ℚ → ℚ) (cmpHist : List ℚ → List ℚ → ℚ)
    (baseSpeed maxDistanceCap simThr alpha : ℚ) (selFrame : ℕ)
    (dets : List Detection) (extract : Box → List ℚ) (i : ℕ)
    (assigned1 assigned2 : List (Option ℤ)) (s : PlayerState) : PlayerState :=
  (pass2One sqrtQ cmpHist baseSpeed maxDistanceCap simThr alpha selFrame
    dets extract i assigned2
    (pass1One alpha dets extract i assigned1 s).1).1

/-- Caller configuration of `run_selective_tracking` (the video, model
and output paths are file-system plumbing outside the embedding). -/
structure RunConfig where
  iouThreshold : ℚ
  baseSpeed : ℚ
  maxDistanceCap : ℚ
  similarityThreshold : ℚ
  histogramEmaAlpha : ℚ
  maxFrames : Option ℕ
  fixedOutputSize : Option (ℤ × ℤ)

/-- The full frame loop: initial states from the selection record, then
`processFrame` over the (possibly `max_frames`-capped) frame sequence
with indices `0, 1, ...`. -/
def runStates (sqrtQ : ℚ → ℚ) (cmpHist : List ℚ → List ℚ → ℚ)
    (cfg : RunConfig) (sel : SelectionData) (frames : List FrameInput) :
    List PlayerState :=
  let framesEff := match cfg.maxFrames with
    | some m => frames.take m
    | none => frames
  framesEff.enum.foldl
    (fun sts p =>
      processFrame sqrtQ cmpHist cfg.baseSpeed cfg.maxDistanceCap
        cfg.similarityThreshold cfg.histogramEmaAlpha sel.selectionFrame
        p.1 p.2 sts)
    (sel.players.map initState)

/-- Post-processing of one player's `output_size`: the caller-supplied
fixed size verbatim, otherwise `int(max_bbox * 1.2)` per component
(`1.2` is exactly `6/5` on the integer widths the run stores, since the
double product `w*1.2` rounds back to the exact value whenever `6w/5`
is an integer). -/
def finalizeOutputSize (fixed : Option (ℤ × ℤ)) (maxW maxH : ℚ) : ℤ × ℤ :=
  match fixed with
  | some wh => wh
  | none => (pyInt (maxW * (6/5)), pyInt (maxH * (6/5)))

/-- One entry of the `selected_players` output list. -/
structure PlayerResult where
  name : String
  selectionId : ℤ
  frames : List (ℕ × Box)
  maxBbox : ℤ × ℤ
  outputSize : ℤ × ℤ
  frameCount : ℕ
  missingFrames : List ℕ

/-- The tracking output record (the `video_info` block only repeats
container metadata read from the decoder and is omitted). -/
structure TrackingResults where
  selectedPlayers : List PlayerResult

/-- Result compilation for one final player state. -/
def finalizePlayer (fixed : Option (ℤ × ℤ)) (s : PlayerState) : PlayerResult :=
  { name := s.name
    selectionId := s.selectionId
    frames := s.frames
    maxBbox := (pyInt s.maxBbox.1, pyInt s.maxBbox.2)
    outputSize := finalizeOutputSize fixed s.maxBbox.1 s.maxBbox.2
    frameCount := s.frames.length
    missingFrames := s.missingFrames }

/-- `run_selective_tracking` end to end.  The `Except` layer carries
the exceptions the Python function can raise; inside the function those
are only file-system and JSON-parse errors, which sit before this
embedding's inputs — the tracking body itself performs no validation of
the selection record (in particular an empty `players` list is
processed as-is) and never raises. -/
def run_selective_tracking (sqrtQ : ℚ → ℚ) (cmpHist : List ℚ → List ℚ → ℚ)
    (cfg : RunConfig) (sel : SelectionData) (frames : List FrameInput) :
    Except String TrackingResults :=
  .ok ⟨(runStates sqrtQ cmpHist cfg sel frames).map
        (finalizePlayer cfg.fixedOutputSize)⟩

/-- `person_tracker.calculate_output_size`: `ceil(max_bbox * 1.2)` per
component, each then rounded up to the next even integer. -/
def calculate_output_size (maxW maxH : ℚ) : ℤ × ℤ :=
  let pw := ⌈maxW * (6/5)⌉
  let ph := ⌈maxH * (6/5)⌉
  (if pw % 2 ≠ 0 then pw + 1 else pw, if ph % 2 ≠ 0 then ph + 1 else ph)

/-!  Shared concrete inputs used by witnesses and counterexamples. -/

/-- A trivial square-root oracle (never consulted in the scenarios that
use it). -/
def demoSqrt : ℚ → ℚ := fun _ => 0

/-- A histogram comparison oracle reporting perfect correlation. -/
def demoCmp : List ℚ → List ℚ → ℚ := fun _ _ => 1

/-- A constant appearance model. -/
def demoExtract : Box → List ℚ := fun _ => [1]

/-- The CLI-default configuration with `iou_threshold = 0.5`. -/
def demoCfg : RunConfig := ⟨1/2, 5, 500, 2/5, 1/10, none, none⟩

/-- A 10×10 box at the origin. -/
def demoBoxA : Box := ⟨0, 0, 10, 10⟩

/-- A 100×100 box at the origin. -/
def demoBoxT : Box := ⟨0, 0, 100, 100⟩

/-- A detection overlapping `demoBoxA` exactly, carrying track id 1. -/
def demoFrameMatch : FrameInput := ⟨[⟨demoBoxA, some 1⟩], demoExtract⟩

/-- A frame with no detections. -/
def demoFrameEmpty : FrameInput := ⟨[], demoExtract⟩

/-- A single selected player at `demoBoxA`, selection frame 0. -/
def demoSelOne : SelectionData := ⟨0, [⟨1, "p1", demoBoxA⟩]⟩

/-- Two selected players with identical initial boxes. -/
def demoSelTwo : SelectionData := ⟨0, [⟨1, "p1", demoBoxA⟩, ⟨2, "p2", demoBoxA⟩]⟩

/-- A single selected player at `demoBoxT`, selection frame 0. -/
def demoSelT : SelectionData := ⟨0, [⟨1, "p1", demoBoxT⟩]⟩

/-- A frame whose single detection has IOU exactly 1/3 with
`demoBoxT`, carrying track id 5. -/
def demoFrameT : FrameInput := ⟨[⟨⟨0, 50, 100, 150⟩, some 5⟩], demoExtract⟩

/-- A player state mid-run: lost (no current track id) with an
established reference histogram. -/
def demoLostState : PlayerState :=
  { name := "p1"
    selectionId := 1
    currentTrackId := none
    lastBbox := demoBoxA
    referenceHistogram := some [1]
    framesLost := 0
    frames := []
    maxBbox := (0, 0)
    missingFrames := [] }

/-- Number of player states currently holding track id `t`. -/
def holdersOfTrack (states : List PlayerState) (t : ℤ) : ℕ :=
  (states.filter (fun s => s.currentTrackId == some t)).length

/-! ### C7: `calculate_iou` -/

/-- Claim C7 (confirmed): IOU is intersection area over union area and
`0` when the union area is `0`; `IOU(box, box) = 1` for any well-formed
rectangle; IOU of disjoint rectangles is `0`; and
`IOU([0,0,100,100], [50,50,150,150]) = 2500/17500`. -/
theorem calculate_iou_spec :
    (∀ b1 b2 : Box, calculate_iou b1 b2 =
      if unionArea b1 b2 > 0 then interArea b1 b2 / unionArea b1 b2 else 0) ∧
    (∀ b : Box, WellFormed b → calculate_iou b b = 1) ∧
    (∀ b1 b2 : Box, WellFormed b1 → WellFormed b2 → DisjointBoxes b1 b2 →
      calculate_iou b1 b2 = 0) ∧
    calculate_iou ⟨0, 0, 100, 100⟩ ⟨50, 50, 150, 150⟩ = 2500 / 17500 := by
  refine ⟨fun b1 b2 => rfl, ?_, ?_,
    by norm_num [calculate_iou, interArea, unionArea, boxArea, min_def, max_def]⟩
  · rintro b ⟨hx, hy⟩
    have hwx : (0:ℚ) < b.x2 - b.x1 := sub_pos.mpr hx
    have hwy : (0:ℚ) < b.y2 - b.y1 := sub_pos.mpr hy
    have hinter : interArea b b = boxArea b := by
      unfold interArea boxArea
      rw [min_self, min_self, max_self, max_self,
        max_eq_right hwx.le, max_eq_right hwy.le]
    have harea : 0 < boxArea b := mul_pos hwx hwy
    have huni : unionArea b b = boxArea b := by
      unfold unionArea; rw [hinter]; ring
    unfold calculate_iou
    rw [huni, hinter, if_pos harea, div_self (ne_of_gt harea)]
  · rintro b1 b2 ⟨hx1, hy1⟩ ⟨hx2, hy2⟩ hdisj
    have hinter : interArea b1 b2 = 0 := by
      unfold interArea
      rcases hdisj with h | h | h | h
      · have hle : min b1.x2 b2.x2 - max b1.x1 b2.x1 ≤ 0 := by
          have h1 := min_le_left b1.x2 b2.x2
          have h2 := le_max_right b1.x1 b2.x1
          linarith
        rw [max_eq_left hle, zero_mul]
      · have hle : min b1.x2 b2.x2 - max b1.x1 b2.x1 ≤ 0 := by
          have h1 := min_le_right b1.x2 b2.x2
          have h2 := le_max_left b1.x1 b2.x1
          linarith
        rw [max_eq_left hle, zero_mul]
      · have hle : min b1.y2 b2.y2 - max b1.y1 b2.y1 ≤ 0 := by
          have h1 := min_le_left b1.y2 b2.y2
          have h2 := le_max_right b1.y1 b2.y1
          linarith
        rw [max_eq_left hle, mul_zero]
      · have hle : min b1.y2 b2.y2 - max b1.y1 b2.y1 ≤ 0 := by
          have h1 := min_le_right b1.y2 b2.y2
          have h2 := le_max_left b1.y1 b2.y1
          linarith
        rw [max_eq_left hle, mul_zero]
    have harea1 : 0 < boxArea b1 := mul_pos (sub_pos.mpr hx1) (sub_pos.mpr hy1)
    have harea2 : 0 < boxArea b2 := mul_pos (sub_pos.mpr hx2) (sub_pos.mpr hy2)
    have huni : 0 < unionArea b1 b2 := by
      unfold unionArea; rw [hinter]; linarith
    unfold calculate_iou
    rw [if_pos huni, hinter, zero_div]

/-- Witness for C7: the general clauses applied to concrete boxes. -/
theorem calculate_iou_spec_witness :
    calculate_iou ⟨0, 0, 10, 10⟩ ⟨0, 0, 10, 10⟩ = 1 ∧
    calculate_iou ⟨0, 0, 10, 10⟩ ⟨20, 20, 30, 30⟩ = 0 :=
  ⟨calculate_iou_spec.2.1 ⟨0, 0, 10, 10⟩ (by constructor <;> norm_num),
   calculate_iou_spec.2.2.1 ⟨0, 0, 10, 10⟩ ⟨20, 20, 30, 30⟩
     (by constructor <;> norm_num) (by constructor <;> norm_num)
     (Or.inl (by norm_num))⟩

/-! ### C3: output size finalization -/

/-- Claim C3 (code bug): with no caller-supplied fixed size,
`run_selective_tracking` finalizes `output_size` by `int(max_bbox*1.2)`
— truncation with no rounding up to even — so a `max_bbox` of `1×1`
yields `1×1`, while the claimed formula (implemented by
`person_tracker.calculate_output_size`) yields `2×2`; the fixed-size
path does return the caller's size verbatim. -/
theorem output_size_truncation_bug :
    finalizeOutputSize none 1 1 = (1, 1) ∧
    calculate_output_size 1 1 = (2, 2) ∧
    ((1, 1) : ℤ × ℤ) ≠ (2, 2) ∧
    (∀ (w h : ℤ) (mw mh : ℚ), finalizeOutputSize (some (w, h)) mw mh = (w, h)) :=
  ⟨by norm_num [finalizeOutputSize, pyInt],
   by
    have hc : ⌈(1 * (6/5) : ℚ)⌉ = 2 := by
      rw [Int.ceil_eq_iff]
      norm_num
    simp only [calculate_output_size, hc]
    norm_num,
   by decide, fun w h mw mh => rfl⟩

/-! ### C8: `extract_color_histogram` -/

/-- `normalizeMinMax` preserves length. -/
theorem length_normalizeMinMax (l : List ℕ) :
    (normalizeMinMax l).length = l.length := by
  unfold normalizeMinMax
  split <;> rw [List.length_map]

/-- `calcHist` produces one count per bin. -/
theorem length_calcHist (value : Pixel → ℚ) (hi : ℚ) (bins : ℕ)
    (pixels : List Pixel) : (calcHist value hi bins pixels).length = bins := by
  unfold calcHist
  rw [List.length_map, List.length_range]

/-- `clip01` lands in `[0,1]`. -/
theorem clip01_mem_unit (q : ℚ) : 0 ≤ clip01 q ∧ clip01 q ≤ 1 :=
  ⟨le_max_left 0 _, max_le (by norm_num) (min_le_left 1 q)⟩

/-- Claim C8 (confirmed): histogram extraction is total — for every
frame and bbox its output has length exactly `bins_h + bins_s`, every
component lies in `[0,1]`, and an empty bounds-clipped crop produces
the all-zero vector of that length. -/
theorem extract_color_histogram_total (frame : List (List Pixel)) (bbox : Box)
    (binsH binsS : ℕ) :
    (extract_color_histogram frame bbox binsH binsS).length = binsH + binsS ∧
    (∀ v ∈ extract_color_histogram frame bbox binsH binsS, 0 ≤ v ∧ v ≤ 1) ∧
    (cropSize (crop_bbox_from_frame frame bbox) = 0 →
      extract_color_histogram frame bbox binsH binsS =
        List.replicate (binsH + binsS) 0) := by
  by_cases hempty : cropSize (crop_bbox_from_frame frame bbox) = 0
  · refine ⟨?_, ?_, fun _ => ?_⟩ <;>
      simp only [extract_color_histogram, if_pos hempty]
    · exact List.length_replicate _ _
    · intro v hv
      rw [List.eq_of_mem_replicate hv]
      norm_num
  · refine ⟨?_, ?_, fun h => absurd h hempty⟩
    · simp only [extract_color_histogram, if_neg hempty]
      rw [List.length_append, List.length_map, List.length_map,
        length_normalizeMinMax, length_normalizeMinMax,
        length_calcHist, length_calcHist]
    · simp only [extract_color_histogram, if_neg hempty]
      intro v hv
      rcases List.mem_append.mp hv with h | h <;>
        · obtain ⟨u, _, hu⟩ := List.mem_map.mp h
          exact hu ▸ clip01_mem_unit u

/-- Witness for C8: the empty frame gives the all-zero default-length
vector. -/
theorem extract_color_histogram_total_witness :
    extract_color_histogram [] ⟨0, 0, 5, 5⟩ 50 50 = List.replicate 100 0 :=
  (extract_color_histogram_total [] ⟨0, 0, 5, 5⟩ 50 50).2.2 (by decide)

/-! ### C6 and C10: `hybrid_rematch` invariants

The candidate loop is a left fold with accumulator
`(best_score, best_match)`; the lemmas below establish its invariants:
the best score never decreases, and any stored match originates from an
in-radius unclaimed detection whose combined score equals the stored
best and reaches the similarity threshold. -/

/-- A detection eligible for Pass-3 consideration: it carries a track
id not yet claimed in the current frame's exclusivity set. -/
def hybridEligible (assigned : List (Option ℤ)) (d : Detection) : Prop :=
  ∃ t, d.trackId = some t ∧ some t ∉ assigned

/-- Invariant of the `hybrid_rematch` accumulator relative to the full
detection list `dets`. -/
def HybAccOK (sqrtQ : ℚ → ℚ) (cmpHist : List ℚ → List ℚ → ℚ)
    (extract : Box → List ℚ) (lastBbox : Box) (ref : List ℚ)
    (R : ℚ) (assigned : List (Option ℤ)) (simThr dw hw : ℚ)
    (dets : List Detection) (acc : ℚ × Option (ℤ × Box × List ℚ)) : Prop :=
  ∀ t b h, acc.2 = some (t, b, h) →
    (∃ d ∈ dets, d.trackId = some t ∧ d.bbox = b) ∧
    some t ∉ assigned ∧
    centerDist sqrtQ lastBbox b ≤ R ∧
    acc.1 = hybridScoreOf sqrtQ cmpHist extract lastBbox ref R dw hw b ∧
    simThr ≤ acc.1 ∧
    h = extract b

/-- The loop skips a candidate without a track id. -/
theorem hybridStep_eq_noId (sqrtQ : ℚ → ℚ) (cmpHist : List ℚ → List ℚ → ℚ)
    (extract : Box → List ℚ) (lastBbox : Box) (ref : List ℚ)
    (R : ℚ) (assigned : List (Option ℤ)) (simThr dw hw : ℚ)
    (acc : ℚ × Option (ℤ × Box × List ℚ)) (d : Detection)
    (hdt : d.trackId = none) :
    hybridStep sqrtQ cmpHist extract lastBbox ref R assigned simThr dw hw acc d = acc := by
  simp only [hybridStep, hdt]

/-- The loop skips a candidate whose track id is already claimed. -/
theorem hybridStep_eq_claimed (sqrtQ : ℚ → ℚ) (cmpHist : List ℚ → List ℚ → ℚ)
    (extract : Box → List ℚ) (lastBbox : Box) (ref : List ℚ)
    (R : ℚ) (assigned : List (Option ℤ)) (simThr dw hw : ℚ)
    (acc : ℚ × Option (ℤ × Box × List ℚ)) (d : Detection) (u : ℤ)
    (hdt : d.trackId = some u) (hmem : some u ∈ assigned) :
    hybridStep sqrtQ cmpHist extract lastBbox ref R assigned simThr dw hw acc d = acc := by
  simp only [hybridStep, hdt]
  rw [if_pos hmem]

/-- The loop skips a candidate beyond the search radius. -/
theorem hybridStep_eq_far (sqrtQ : ℚ → ℚ) (cmpHist : List ℚ → List ℚ → ℚ)
    (extract : Box → List ℚ) (lastBbox : Box) (ref : List ℚ)
    (R : ℚ) (assigned : List (Option ℤ)) (simThr dw hw : ℚ)
    (acc : ℚ × Option (ℤ × Box × List ℚ)) (d : Detection) (u : ℤ)
    (hdt : d.trackId = some u) (hmem : some u ∉ assigned)
    (hfar : centerDist sqrtQ lastBbox d.bbox > R) :
    hybridStep sqrtQ cmpHist extract lastBbox ref R assigned simThr dw hw acc d = acc := by
  simp only [hybridStep, hdt]
  rw [if_neg hmem, if_pos hfar]

/-- The loop accepts an eligible in-radius candidate whose score
strictly beats the running best and reaches the threshold. -/
theorem hybridStep_eq_accept (sqrtQ : ℚ → ℚ) (cmpHist : List ℚ → List ℚ → ℚ)
    (extract : Box → List ℚ) (lastBbox : Box) (ref : List ℚ)
    (R : ℚ) (assigned : List (Option ℤ)) (simThr dw hw : ℚ)
    (acc : ℚ × Option (ℤ × Box × List ℚ)) (d : Detection) (u : ℤ)
    (hdt : d.trackId = some u) (hmem : some u ∉ assigned)
    (hfar : ¬ centerDist sqrtQ lastBbox d.bbox > R)
    (hcond : hybridScoreOf sqrtQ cmpHist extract lastBbox ref R dw hw d.bbox > acc.1 ∧
      hybridScoreOf sqrtQ cmpHist extract lastBbox ref R dw hw d.bbox ≥ simThr) :
    hybridStep sqrtQ cmpHist extract lastBbox ref R assigned simThr dw hw acc d =
      (hybridScoreOf sqrtQ cmpHist extract lastBbox ref R dw hw d.bbox,
        some (u, d.bbox, extract d.bbox)) := by
  simp only [hybridStep, hdt]
  rw [if_neg hmem, if_neg hfar, if_pos hcond]

/-- The loop keeps the accumulator when the score test fails. -/
theorem hybridStep_eq_reject (sqrtQ : ℚ → ℚ) (cmpHist : List ℚ → List ℚ → ℚ)
    (extract : Box → List ℚ) (lastBbox : Box) (ref : List ℚ)
    (R : ℚ) (assigned : List (Option ℤ)) (simThr dw hw : ℚ)
    (acc : ℚ × Option (ℤ × Box × List ℚ)) (d : Detection) (u : ℤ)
    (hdt : d.trackId = some u) (hmem : some u ∉ assigned)
    (hfar : ¬ centerDist sqrtQ lastBbox d.bbox > R)
    (hcond : ¬ (hybridScoreOf sqrtQ cmpHist extract lastBbox ref R dw hw d.bbox > acc.1 ∧
      hybridScoreOf sqrtQ cmpHist extract lastBbox ref R dw hw d.bbox ≥ simThr)) :
    hybridStep sqrtQ cmpHist extract lastBbox ref R assigned simThr dw hw acc d = acc := by
  simp only [hybridStep, hdt]
  rw [if_neg hmem, if_neg hfar, if_neg hcond]

/-- One loop iteration preserves the accumulator invariant. -/
theorem hybridStep_preserves (sqrtQ : ℚ → ℚ) (cmpHist : List ℚ → List ℚ → ℚ)
    (extract : Box → List ℚ) (lastBbox : Box) (ref : List ℚ)
    (R : ℚ) (assigned : List (Option ℤ)) (simThr dw hw : ℚ)
    (dets : List Detection) (d : Detection) (hd : d ∈ dets)
    (acc : ℚ × Option (ℤ × Box × List ℚ))
    (hacc : HybAccOK sqrtQ cmpHist extract lastBbox ref R assigned simThr dw hw dets acc) :
    HybAccOK sqrtQ cmpHist extract lastBbox ref R assigned simThr dw hw dets
      (hybridStep sqrtQ cmpHist extract lastBbox ref R assigned simThr dw hw acc d) := by
  cases hdt : d.trackId with
  | none =>
    rw [hybridStep_eq_noId sqrtQ cmpHist extract lastBbox ref R assigned simThr dw hw acc d hdt]
    exact hacc
  | some u =>
    by_cases hmem : some u ∈ assigned
    · rw [hybridStep_eq_claimed sqrtQ cmpHist extract lastBbox ref R assigned
        simThr dw hw acc d u hdt hmem]
      exact hacc
    · by_cases hfar : centerDist sqrtQ lastBbox d.bbox > R
      · rw [hybridStep_eq_far sqrtQ cmpHist extract lastBbox ref R assigned
          simThr dw hw acc d u hdt hmem hfar]
        exact hacc
      · by_cases hcond :
            hybridScoreOf sqrtQ cmpHist extract lastBbox ref R dw hw d.bbox > acc.1 ∧
            hybridScoreOf sqrtQ cmpHist extract lastBbox ref R dw hw d.bbox ≥ simThr
        · rw [hybridStep_eq_accept sqrtQ cmpHist extract lastBbox ref R assigned
            simThr dw hw acc d u hdt hmem hfar hcond]
          intro t b h heq
          obtain ⟨ht, hb, hh⟩ : u = t ∧ d.bbox = b ∧ extract d.bbox = h := by
            have hinj := Option.some.inj heq
            exact ⟨congrArg Prod.fst hinj,
              congrArg (fun p => p.2.1) hinj, congrArg (fun p => p.2.2) hinj⟩
          subst ht
          subst hb
          subst hh
          exact ⟨⟨d, hd, hdt, rfl⟩, hmem, not_lt.mp hfar, rfl, hcond.2, rfl⟩
        · rw [hybridStep_eq_reject sqrtQ cmpHist extract lastBbox ref R assigned
            simThr dw hw acc d u hdt hmem hfar hcond]
          exact hacc

/-- The candidate fold preserves the accumulator invariant. -/
theorem hybridFold_preserves (sqrtQ : ℚ → ℚ) (cmpHist : List ℚ → List ℚ → ℚ)
    (extract : Box → List ℚ) (lastBbox : Box) (ref : List ℚ)
    (R : ℚ) (assigned : List (Option ℤ)) (simThr dw hw : ℚ)
    (dets : List Detection) :
    ∀ (l : List Detection) (acc : ℚ × Option (ℤ × Box × List ℚ)),
      (∀ d ∈ l, d ∈ dets) →
      HybAccOK sqrtQ cmpHist extract lastBbox ref R assigned simThr dw hw dets acc →
      HybAccOK sqrtQ cmpHist extract lastBbox ref R assigned simThr dw hw dets
        (l.foldl (hybridStep sqrtQ cmpHist extract lastBbox ref R assigned simThr dw hw) acc)
  | [], acc, _, hacc => hacc
  | d :: rest, acc, hsub, hacc => by
    rw [List.foldl_cons]
    exact hybridFold_preserves sqrtQ cmpHist extract lastBbox ref R assigned
      simThr dw hw dets rest _ (fun e he => hsub e (List.mem_cons_of_mem d he))
      (hybridStep_preserves sqrtQ cmpHist extract lastBbox ref R assigned
        simThr dw hw dets d (hsub d (List.mem_cons_self d rest)) acc hacc)

/-- One loop iteration never decreases the best score. -/
theorem hybridStep_fst_le (sqrtQ : ℚ → ℚ) (cmpHist : List ℚ → List ℚ → ℚ)
    (extract : Box → List ℚ) (lastBbox : Box) (ref : List ℚ)
    (R : ℚ) (assigned : List (Option ℤ)) (simThr dw hw : ℚ)
    (acc : ℚ × Option (ℤ × Box × List ℚ)) (d : Detection) :
    acc.1 ≤ (hybridStep sqrtQ cmpHist extract lastBbox ref R assigned simThr dw hw acc d).1 := by
  cases hdt : d.trackId with
  | none =>
    rw [hybridStep_eq_noId sqrtQ cmpHist extract lastBbox ref R assigned simThr dw hw acc d hdt]
  | some u =>
    by_cases hmem : some u ∈ assigned
    · rw [hybridStep_eq_claimed sqrtQ cmpHist extract lastBbox ref R assigned
        simThr dw hw acc d u hdt hmem]
    · by_cases hfar : centerDist sqrtQ lastBbox d.bbox > R
      · rw [hybridStep_eq_far sqrtQ cmpHist extract lastBbox ref R assigned
          simThr dw hw acc d u hdt hmem hfar]
      · by_cases hcond :
            hybridScoreOf sqrtQ cmpHist extract lastBbox ref R dw hw d.bbox > acc.1 ∧
            hybridScoreOf sqrtQ cmpHist extract lastBbox ref R dw hw d.bbox ≥ simThr
        · rw [hybridStep_eq_accept sqrtQ cmpHist extract lastBbox ref R assigned
            simThr dw hw acc d u hdt hmem hfar hcond]
          exact le_of_lt hcond.1
        · rw [hybridStep_eq_reject sqrtQ cmpHist extract lastBbox ref R assigned
            simThr dw hw acc d u hdt hmem hfar hcond]

/-- The candidate fold never decreases the best score. -/
theorem hybridFold_fst_le (sqrtQ : ℚ → ℚ) (cmpHist : List ℚ → List ℚ → ℚ)
    (extract : Box → List ℚ) (lastBbox : Box) (ref : List ℚ)
    (R : ℚ) (assigned : List (Option ℤ)) (simThr dw hw : ℚ) :
    ∀ (l : List Detection) (acc : ℚ × Option (ℤ × Box × List ℚ)),
      acc.1 ≤ (l.foldl (hybridStep sqrtQ cmpHist extract lastBbox ref R assigned simThr dw hw) acc).1
  | [], acc => le_refl _
  | d :: rest, acc => by
    rw [List.foldl_cons]
    exact le_trans
      (hybridStep_fst_le sqrtQ cmpHist extract lastBbox ref R assigned simThr dw hw acc d)
      (hybridFold_fst_le sqrtQ cmpHist extract lastBbox ref R assigned simThr dw hw rest _)

/-- Every eligible in-radius candidate either scores no better than the
final best score, or scores below the similarity threshold. -/
theorem hybridFold_max (sqrtQ : ℚ → ℚ) (cmpHist : List ℚ → List ℚ → ℚ)
    (extract : Box → List ℚ) (lastBbox : Box) (ref : List ℚ)
    (R : ℚ) (assigned : List (Option ℤ)) (simThr dw hw : ℚ) :
    ∀ (l : List Detection) (acc : ℚ × Option (ℤ × Box × List ℚ)),
      ∀ d ∈ l, hybridEligible assigned d →
      centerDist sqrtQ lastBbox d.bbox ≤ R →
      hybridScoreOf sqrtQ cmpHist extract lastBbox ref R dw hw d.bbox ≤
        (l.foldl (hybridStep sqrtQ cmpHist extract lastBbox ref R assigned simThr dw hw) acc).1 ∨
      hybridScoreOf sqrtQ cmpHist extract lastBbox ref R dw hw d.bbox < simThr := by
  intro l
  induction l with
  | nil =>
    intro acc d hd helig hnear
    exact absurd hd (List.not_mem_nil d)
  | cons e rest ih =>
    intro acc d hd helig hnear
    rw [List.foldl_cons]
    rcases List.mem_cons.mp hd with rfl | hdrest
    · obtain ⟨u, hdt, hmem⟩ := helig
      by_cases hcond :
          hybridScoreOf sqrtQ cmpHist extract lastBbox ref R dw hw d.bbox > acc.1 ∧
          hybridScoreOf sqrtQ cmpHist extract lastBbox ref R dw hw d.bbox ≥ simThr
      · left
        have hstep :
            (hybridStep sqrtQ cmpHist extract lastBbox ref R assigned simThr dw hw acc d).1 =
            hybridScoreOf sqrtQ cmpHist extract lastBbox ref R dw hw d.bbox := by
          rw [hybridStep_eq_accept sqrtQ cmpHist extract lastBbox ref R assigned
            simThr dw hw acc d u hdt hmem (not_lt.mpr hnear) hcond]
        exact le_trans (le_of_eq hstep.symm)
          (hybridFold_fst_le sqrtQ cmpHist extract lastBbox ref R assigned simThr dw hw rest _)
      · rcases not_and_or.mp hcond with hle | hlt
        · left
          exact le_trans (not_lt.mp hle) (le_trans
            (hybridStep_fst_le sqrtQ cmpHist extract lastBbox ref R assigned simThr dw hw acc d)
            (hybridFold_fst_le sqrtQ cmpHist extract lastBbox ref R assigned simThr dw hw rest _))
        · right
          exact not_le.mp hlt
    · exact ih _ d hdrest helig hnear

/-- Claim C6 (confirmed): a `hybrid_rematch` result always lies within
the search radius `min(base_speed*frames_lost, max_distance_cap)`, its
combined score reaches the similarity threshold, and it maximizes the
combined score among the in-radius candidates whose track id is present
and unclaimed. -/
theorem hybrid_rematch_radius_threshold_max (sqrtQ : ℚ → ℚ)
    (cmpHist : List ℚ → List ℚ → ℚ) (extract : Box → List ℚ)
    (lastBbox : Box) (ref : List ℚ) (framesLost : ℕ)
    (dets : List Detection) (assigned : List (Option ℤ))
    (baseSpeed maxDistanceCap simThr dw hw : ℚ)
    (t : ℤ) (b : Box) (h : List ℚ)
    (hres : hybrid_rematch sqrtQ cmpHist extract lastBbox ref framesLost dets
      assigned baseSpeed maxDistanceCap simThr dw hw = some (t, b, h)) :
    centerDist sqrtQ lastBbox b ≤ min (baseSpeed * (framesLost : ℚ)) maxDistanceCap ∧
    simThr ≤ hybridScoreOf sqrtQ cmpHist extract lastBbox ref
      (min (baseSpeed * (framesLost : ℚ)) maxDistanceCap) dw hw b ∧
    ∀ d ∈ dets, hybridEligible assigned d →
      centerDist sqrtQ lastBbox d.bbox ≤ min (baseSpeed * (framesLost : ℚ)) maxDistanceCap →
      hybridScoreOf sqrtQ cmpHist extract lastBbox ref
        (min (baseSpeed * (framesLost : ℚ)) maxDistanceCap) dw hw d.bbox ≤
      hybridScoreOf sqrtQ cmpHist extract lastBbox ref
        (min (baseSpeed * (framesLost : ℚ)) maxDistanceCap) dw hw b := by
  simp only [hybrid_rematch] at hres
  have hinv := hybridFold_preserves sqrtQ cmpHist extract lastBbox ref
    (min (baseSpeed * (framesLost : ℚ)) maxDistanceCap) assigned simThr dw hw
    dets dets (0, none) (fun d hd => hd)
    (fun t' b' h' habs => Option.noConfusion habs) t b h hres
  obtain ⟨-, -, hdist, hscore, hthr, -⟩ := hinv
  refine ⟨hdist, hscore ▸ hthr, fun d hd helig hnear => ?_⟩
  rcases hybridFold_max sqrtQ cmpHist extract lastBbox ref
      (min (baseSpeed * (framesLost : ℚ)) maxDistanceCap) assigned simThr dw hw
      dets (0, none) d hd helig hnear with hle | hlt
  · exact hscore ▸ hle
  · exact le_of_lt (lt_of_lt_of_le hlt (hscore ▸ hthr))

/-- Witness for C6: a concrete lost player two frames old, one
candidate at exact distance 5 within the radius `min(5*2, 500) = 10`,
accepted with score `3/10 * 1/2 + 7/10 * 1 = 17/20 ≥ 2/5`. -/
theorem hybrid_rematch_radius_threshold_max_witness :
    centerDist (fun _ => 5) ⟨0, 0, 0, 0⟩ ⟨2, 3, 4, 5⟩ ≤ min ((5 : ℚ) * (2 : ℕ)) 500 ∧
    (2/5 : ℚ) ≤ hybridScoreOf (fun _ => 5) (fun _ _ => 1) (fun _ => [1])
      ⟨0, 0, 0, 0⟩ [1] (min ((5 : ℚ) * (2 : ℕ)) 500) (3/10) (7/10) ⟨2, 3, 4, 5⟩ ∧
    ∀ d ∈ [(⟨⟨2, 3, 4, 5⟩, some 1⟩ : Detection)], hybridEligible [] d →
      centerDist (fun _ => 5) ⟨0, 0, 0, 0⟩ d.bbox ≤ min ((5 : ℚ) * (2 : ℕ)) 500 →
      hybridScoreOf (fun _ => 5) (fun _ _ => 1) (fun _ => [1])
        ⟨0, 0, 0, 0⟩ [1] (min ((5 : ℚ) * (2 : ℕ)) 500) (3/10) (7/10) d.bbox ≤
      hybridScoreOf (fun _ => 5) (fun _ _ => 1) (fun _ => [1])
        ⟨0, 0, 0, 0⟩ [1] (min ((5 : ℚ) * (2 : ℕ)) 500) (3/10) (7/10) ⟨2, 3, 4, 5⟩ :=
  hybrid_rematch_radius_threshold_max (fun _ => 5) (fun _ _ => 1) (fun _ => [1])
    ⟨0, 0, 0, 0⟩ [1] 2 [⟨⟨2, 3, 4, 5⟩, some 1⟩] [] 5 500 (2/5) (3/10) (7/10)
    1 ⟨2, 3, 4, 5⟩ [1]
    (by norm_num [hybrid_rematch, hybridStep, hybridScoreOf, centerDist,
      boxCenter, min_def])

/-! ### C10: asymmetric treatment of detections without a track id -/

/-- Claim C10 (confirmed): `hybrid_rematch` never returns a detection
whose track id is absent — every returned match originates from a
detection with a present track id — while the Pass-2 bootstrap accepts
a matched detection regardless: when the matched detection has no
track id, the player's `current_track_id` is set to null, null is added
to the exclusivity set, and the player is still recorded for the frame
with a fresh reference histogram (so it re-enters the lost path on the
next frame). -/
theorem trackless_detection_asymmetry :
    (∀ (sqrtQ : ℚ → ℚ) (cmpHist : List ℚ → List ℚ → ℚ) (extract : Box → List ℚ)
      (lastBbox : Box) (ref : List ℚ) (framesLost : ℕ) (dets : List Detection)
      (assigned : List (Option ℤ)) (baseSpeed maxDistanceCap simThr dw hw : ℚ)
      (t : ℤ) (b : Box) (h : List ℚ),
      hybrid_rematch sqrtQ cmpHist extract lastBbox ref framesLost dets assigned
        baseSpeed maxDistanceCap simThr dw hw = some (t, b, h) →
      ∃ d ∈ dets, d.trackId = some t ∧ d.bbox = b) ∧
    (∀ (sqrtQ : ℚ → ℚ) (cmpHist : List ℚ → List ℚ → ℚ)
      (baseSpeed maxDistanceCap simThr alpha : ℚ) (selFrame : ℕ)
      (dets : List Detection) (extract : Box → List ℚ) (i : ℕ)
      (assigned : List (Option ℤ)) (s : PlayerState) (k : ℕ) (d : Detection),
      s.currentTrackId = none → s.referenceHistogram = none →
      match_bbox_to_detections s.lastBbox dets (3/10) = some k →
      dets.get? k = some d → d.trackId = none →
      (pass2One sqrtQ cmpHist baseSpeed maxDistanceCap simThr alpha selFrame
        dets extract i assigned s).1.currentTrackId = none ∧
      none ∈ (pass2One sqrtQ cmpHist baseSpeed maxDistanceCap simThr alpha selFrame
        dets extract i assigned s).2 ∧
      (pass2One sqrtQ cmpHist baseSpeed maxDistanceCap simThr alpha selFrame
        dets extract i assigned s).1.referenceHistogram = some (extract (intBox d.bbox)) ∧
      (pass2One sqrtQ cmpHist baseSpeed maxDistanceCap simThr alpha selFrame
        dets extract i assigned s).1.frames = s.frames ++ [(i, intBox d.bbox)]) := by
  constructor
  · intro sqrtQ cmpHist extract lastBbox ref framesLost dets assigned
      baseSpeed maxDistanceCap simThr dw hw t b h hres
    simp only [hybrid_rematch] at hres
    exact (hybridFold_preserves sqrtQ cmpHist extract lastBbox ref
      (min (baseSpeed * (framesLost : ℚ)) maxDistanceCap) assigned simThr dw hw
      dets dets (0, none) (fun d hd => hd)
      (fun t' b' h' habs => Option.noConfusion habs) t b h hres).1
  · intro sqrtQ cmpHist baseSpeed maxDistanceCap simThr alpha selFrame
      dets extract i assigned s k d hcur href hmatch hget hdt
    rw [List.get?_eq_getElem?] at hget
    refine ⟨?_, ?_, ?_, ?_⟩ <;>
      simp [pass2One, hcur, href, hmatch, hget, hdt]

/-- Witness for C10: a fresh player over one trackless detection that
covers its initial box — the bootstrap accepts it, leaving the track id
null while claiming null and recording the frame. -/
theorem trackless_detection_asymmetry_witness :
    (pass2One demoSqrt demoCmp 5 500 (2/5) (1/10) 0 [⟨demoBoxA, none⟩]
      demoExtract 0 [] (initState ⟨1, "p1", demoBoxA⟩)).1.currentTrackId = none ∧
    none ∈ (pass2One demoSqrt demoCmp 5 500 (2/5) (1/10) 0 [⟨demoBoxA, none⟩]
      demoExtract 0 [] (initState ⟨1, "p1", demoBoxA⟩)).2 ∧
    (pass2One demoSqrt demoCmp 5 500 (2/5) (1/10) 0 [⟨demoBoxA, none⟩]
      demoExtract 0 [] (initState ⟨1, "p1", demoBoxA⟩)).1.referenceHistogram =
      some (demoExtract (intBox demoBoxA)) ∧
    (pass2One demoSqrt demoCmp 5 500 (2/5) (1/10) 0 [⟨demoBoxA, none⟩]
      demoExtract 0 [] (initState ⟨1, "p1", demoBoxA⟩)).1.frames =
      (initState ⟨1, "p1", demoBoxA⟩).frames ++ [(0, intBox demoBoxA)] :=
  trackless_detection_asymmetry.2 demoSqrt demoCmp 5 500 (2/5) (1/10) 0
    [⟨demoBoxA, none⟩] demoExtract 0 [] (initState ⟨1, "p1", demoBoxA⟩) 0
    ⟨demoBoxA, none⟩ rfl rfl
    (by norm_num [match_bbox_to_detections, calculate_iou, interArea, unionArea,
      boxArea, min_def, max_def, List.enum, initState, demoBoxA])
    rfl rfl

/-! ### C1: assignment exclusivity -/

/-- Claim C1 (corrected): the Pass-2 bootstrap ignores the exclusivity
set — the updated player state is identical whatever the set contains
at that moment, because `match_bbox_to_detections` is fed the full
detection list. -/
theorem pass2_bootstrap_ignores_exclusivity (sqrtQ : ℚ → ℚ)
    (cmpHist : List ℚ → List ℚ → ℚ) (baseSpeed maxDistanceCap simThr alpha : ℚ)
    (selFrame : ℕ) (dets : List Detection) (extract : Box → List ℚ) (i : ℕ)
    (A B : List (Option ℤ)) (s : PlayerState)
    (hcur : s.currentTrackId = none) (href : s.referenceHistogram = none) :
    (pass2One sqrtQ cmpHist baseSpeed maxDistanceCap simThr alpha selFrame
      dets extract i A s).1 =
    (pass2One sqrtQ cmpHist baseSpeed maxDistanceCap simThr alpha selFrame
      dets extract i B s).1 := by
  simp only [pass2One, hcur, href]
  cases match_bbox_to_detections s.lastBbox dets (3/10) with
  | none => rfl
  | some k =>
    dsimp only
    cases dets.get? k with
    | none => rfl
    | some d => rfl

/-- Witness for C1's theorem: a fresh player updates identically with
an empty exclusivity set and with one already containing the claimed
track id. -/
theorem pass2_bootstrap_ignores_exclusivity_witness :
    (pass2One demoSqrt demoCmp 5 500 (2/5) (1/10) 0 [⟨demoBoxA, some 1⟩]
      demoExtract 0 [] (initState ⟨1, "p1", demoBoxA⟩)).1 =
    (pass2One demoSqrt demoCmp 5 500 (2/5) (1/10) 0 [⟨demoBoxA, some 1⟩]
      demoExtract 0 [some 1] (initState ⟨1, "p1", demoBoxA⟩)).1 :=
  pass2_bootstrap_ignores_exclusivity demoSqrt demoCmp 5 500 (2/5) (1/10) 0
    [⟨demoBoxA, some 1⟩] demoExtract 0 [] [some 1]
    (initState ⟨1, "p1", demoBoxA⟩) rfl rfl

/-- Counterexample to C1 as stated: two players selected on the same
box both claim the single detection of the frame, so after that frame
both hold track id 1. -/
theorem exclusivity_violated_counterexample :
    (runStates demoSqrt demoCmp demoCfg demoSelTwo [demoFrameMatch]).map
      (fun s => s.currentTrackId) = [some 1, some 1] ∧
    ¬ ((runStates demoSqrt demoCmp demoCfg demoSelTwo [demoFrameMatch]).map
      (fun s => s.currentTrackId)).count (some 1) ≤ 1 := by
  have hmap : (runStates demoSqrt demoCmp demoCfg demoSelTwo [demoFrameMatch]).map
      (fun s => s.currentTrackId) = [some 1, some 1] := by
    norm_num [runStates, processFrame, runPass1, runPass2, pass1One, pass2One,
      match_bbox_to_detections, calculate_iou, interArea, unionArea, boxArea,
      min_def, max_def, List.enum, demoSqrt, demoCmp, demoCfg, demoSelTwo,
      demoFrameMatch, demoBoxA, demoExtract, initState, intBox, pyInt,
      updateMaxBbox, hybrid_rematch, hybridStep]
  refine ⟨hmap, ?_⟩
  rw [hmap]
  decide

/-! ### C2: `frames_lost` transitions -/

/-- Claim C2 (corrected): on a match in any pass `frames_lost` is reset
to exactly 0, but on a no-match frame the counter moves by the number
of failing passes that touch the player: +1 in Pass 1 when the player
entered the frame holding a track id (with no selection-frame guard),
plus +1 in the Pass-2 hybrid branch when the reference histogram exists
and the frame is at or after the selection frame — and not at all for
an unmatched bootstrap-state player. -/
theorem frames_lost_transitions (sqrtQ : ℚ → ℚ)
    (cmpHist : List ℚ → List ℚ → ℚ) (baseSpeed maxDistanceCap simThr alpha : ℚ)
    (selFrame : ℕ) (dets : List Detection) (extract : Box → List ℚ) (i : ℕ)
    (A : List (Option ℤ)) (s : PlayerState) :
    (∀ tid d, s.currentTrackId = some tid →
      dets.find? (fun dd => dd.trackId == some tid) = some d →
      (pass1One alpha dets extract i A s).1.framesLost = 0) ∧
    (∀ tid, s.currentTrackId = some tid →
      dets.find? (fun dd => dd.trackId == some tid) = none →
      (pass1One alpha dets extract i A s).1.framesLost = s.framesLost + 1 ∧
      (pass1One alpha dets extract i A s).1.currentTrackId = none) ∧
    (s.currentTrackId = none → (pass1One alpha dets extract i A s).1 = s) ∧
    (∀ tid, s.currentTrackId = some tid →
      (pass2One sqrtQ cmpHist baseSpeed maxDistanceCap simThr alpha selFrame
        dets extract i A s).1 = s) ∧
    (∀ k d, s.currentTrackId = none → s.referenceHistogram = none →
      match_bbox_to_detections s.lastBbox dets (3/10) = some k →
      dets.get? k = some d →
      (pass2One sqrtQ cmpHist baseSpeed maxDistanceCap simThr alpha selFrame
        dets extract i A s).1.framesLost = 0) ∧
    (s.currentTrackId = none → s.referenceHistogram = none →
      match_bbox_to_detections s.lastBbox dets (3/10) = none →
      (pass2One sqrtQ cmpHist baseSpeed maxDistanceCap simThr alpha selFrame
        dets extract i A s).1 = s) ∧
    (∀ ref m, s.currentTrackId = none → s.referenceHistogram = some ref →
      hybrid_rematch sqrtQ cmpHist extract s.lastBbox ref s.framesLost dets A
        baseSpeed maxDistanceCap simThr (3/10) (7/10) = some m →
      (pass2One sqrtQ cmpHist baseSpeed maxDistanceCap simThr alpha selFrame
        dets extract i A s).1.framesLost = 0) ∧
    (∀ ref, s.currentTrackId = none → s.referenceHistogram = some ref →
      hybrid_rematch sqrtQ cmpHist extract s.lastBbox ref s.framesLost dets A
        baseSpeed maxDistanceCap simThr (3/10) (7/10) = none → selFrame ≤ i →
      (pass2One sqrtQ cmpHist baseSpeed maxDistanceCap simThr alpha selFrame
        dets extract i A s).1.framesLost = s.framesLost + 1) ∧
    (∀ ref, s.currentTrackId = none → s.referenceHistogram = some ref →
      hybrid_rematch sqrtQ cmpHist extract s.lastBbox ref s.framesLost dets A
        baseSpeed maxDistanceCap simThr (3/10) (7/10) = none → i < selFrame →
      (pass2One sqrtQ cmpHist baseSpeed maxDistanceCap simThr alpha selFrame
        dets extract i A s).1 = s) := by
  refine ⟨?_, ?_, ?_, ?_, ?_, ?_, ?_, ?_, ?_⟩
  · intro tid d hcur hfind
    simp [pass1One, hcur, hfind]
  · intro tid hcur hfind
    constructor <;> simp [pass1One, hcur, hfind]
  · intro hcur
    simp [pass1One, hcur]
  · intro tid hcur
    simp [pass2One, hcur]
  · intro k d hcur href hmatch hget
    rw [List.get?_eq_getElem?] at hget
    simp [pass2One, hcur, href, hmatch, hget]
  · intro hcur href hmatch
    simp [pass2One, hcur, href, hmatch]
  · intro ref m hcur href hres
    obtain ⟨tid, bb, hh⟩ := m
    simp [pass2One, hcur, href, hres]
  · intro ref hcur href hres hsel
    simp [pass2One, hcur, href, hres, if_pos hsel]
  · intro ref hcur href hres hlt
    simp [pass2One, hcur, href, hres, if_neg (not_le.mpr hlt)]

/-- Witness for C2's theorem: a lost player with a reference histogram
and no detections, at the selection frame, gains exactly the Pass-2
increment. -/
theorem frames_lost_transitions_witness :
    (pass2One demoSqrt demoCmp 5 500 (2/5) (1/10) 0 [] demoExtract 0 []
      demoLostState).1.framesLost = demoLostState.framesLost + 1 :=
  (frames_lost_transitions demoSqrt demoCmp 5 500 (2/5) (1/10) 0 [] demoExtract
    0 [] demoLostState).2.2.2.2.2.2.2.1 [1] rfl rfl rfl (le_refl 0)

/-- Counterexample to C2 as stated: a player matched on frame 0 that
vanishes on frame 1 suffers a double increment — `frames_lost` becomes
2 after its single unmatched frame, not 1 (Pass-1 miss and hybrid miss
both increment). -/
theorem frames_lost_double_increment_counterexample :
    (runStates demoSqrt demoCmp demoCfg demoSelOne
      [demoFrameMatch, demoFrameEmpty]).map (fun s => s.framesLost) = [2] ∧
    (2 : ℕ) ≠ 0 + 1 := by
  refine ⟨?_, by decide⟩
  norm_num [runStates, processFrame, runPass1, runPass2, pass1One, pass2One,
    match_bbox_to_detections, calculate_iou, interArea, unionArea, boxArea,
    min_def, max_def, List.enum, demoSqrt, demoCmp, demoCfg, demoSelOne,
    demoFrameMatch, demoFrameEmpty, demoBoxA, demoExtract, initState, intBox,
    pyInt, updateMaxBbox, hybrid_rematch, hybridStep, update_histogram_ema]

/-! ### C5: `missing_frames` transitions -/

/-- Claim C5 (corrected): `missing_frames` stays strictly increasing
and never receives a matched frame, but it records exactly the frames
(at or after the selection frame) on which the Pass-2 hybrid branch
failed — a frame on which a bootstrap-state player (null reference
histogram) found no IOU match is not recorded. -/
theorem missing_frames_transitions (sqrtQ : ℚ → ℚ)
    (cmpHist : List ℚ → List ℚ → ℚ) (baseSpeed maxDistanceCap simThr alpha : ℚ)
    (selFrame : ℕ) (dets : List Detection) (extract : Box → List ℚ) (i : ℕ)
    (A : List (Option ℤ)) (s : PlayerState) :
    ((pass1One alpha dets extract i A s).1.missingFrames = s.missingFrames) ∧
    (∀ tid, s.currentTrackId = some tid →
      (pass2One sqrtQ cmpHist baseSpeed maxDistanceCap simThr alpha selFrame
        dets extract i A s).1.missingFrames = s.missingFrames) ∧
    (s.currentTrackId = none → s.referenceHistogram = none →
      (pass2One sqrtQ cmpHist baseSpeed maxDistanceCap simThr alpha selFrame
        dets extract i A s).1.missingFrames = s.missingFrames) ∧
    (∀ ref m, s.currentTrackId = none → s.referenceHistogram = some ref →
      hybrid_rematch sqrtQ cmpHist extract s.lastBbox ref s.framesLost dets A
        baseSpeed maxDistanceCap simThr (3/10) (7/10) = some m →
      (pass2One sqrtQ cmpHist baseSpeed maxDistanceCap simThr alpha selFrame
        dets extract i A s).1.missingFrames = s.missingFrames) ∧
    (∀ ref, s.currentTrackId = none → s.referenceHistogram = some ref →
      hybrid_rematch sqrtQ cmpHist extract s.lastBbox ref s.framesLost dets A
        baseSpeed maxDistanceCap simThr (3/10) (7/10) = none → selFrame ≤ i →
      (pass2One sqrtQ cmpHist baseSpeed maxDistanceCap simThr alpha selFrame
        dets extract i A s).1.missingFrames = s.missingFrames ++ [i]) ∧
    (∀ ref, s.currentTrackId = none → s.referenceHistogram = some ref →
      hybrid_rematch sqrtQ cmpHist extract s.lastBbox ref s.framesLost dets A
        baseSpeed maxDistanceCap simThr (3/10) (7/10) = none → i < selFrame →
      (pass2One sqrtQ cmpHist baseSpeed maxDistanceCap simThr alpha selFrame
        dets extract i A s).1.missingFrames = s.missingFrames) ∧
    (List.Pairwise (· < ·) s.missingFrames → (∀ m ∈ s.missingFrames, m < i) →
      List.Pairwise (· < ·)
        (pass2One sqrtQ cmpHist baseSpeed maxDistanceCap simThr alpha selFrame
          dets extract i A s).1.missingFrames ∧
      ∀ m ∈ (pass2One sqrtQ cmpHist baseSpeed maxDistanceCap simThr alpha
          selFrame dets extract i A s).1.missingFrames, m ≤ i) := by
  have hcases : (pass2One sqrtQ cmpHist baseSpeed maxDistanceCap simThr alpha
        selFrame dets extract i A s).1.missingFrames = s.missingFrames ∨
      (pass2One sqrtQ cmpHist baseSpeed maxDistanceCap simThr alpha selFrame
        dets extract i A s).1.missingFrames = s.missingFrames ++ [i] := by
    cases hcur : s.currentTrackId with
    | some tid => left; simp [pass2One, hcur]
    | none =>
      cases href : s.referenceHistogram with
      | none =>
        left
        simp only [pass2One, hcur, href]
        cases match_bbox_to_detections s.lastBbox dets (3/10) with
        | none => rfl
        | some k =>
          dsimp only
          cases dets.get? k with
          | none => rfl
          | some d => rfl
      | some ref =>
        cases hres : hybrid_rematch sqrtQ cmpHist extract s.lastBbox ref
            s.framesLost dets A baseSpeed maxDistanceCap simThr (3/10) (7/10) with
        | some m =>
          left
          obtain ⟨tid, bb, hh⟩ := m
          simp [pass2One, hcur, href, hres]
        | none =>
          by_cases hsel : selFrame ≤ i
          · right; simp [pass2One, hcur, href, hres, if_pos hsel]
          · left; simp [pass2One, hcur, href, hres, if_neg hsel]
  refine ⟨?_, ?_, ?_, ?_, ?_, ?_, ?_⟩
  · cases hcur : s.currentTrackId with
    | none => simp [pass1One, hcur]
    | some tid =>
      cases hfind : dets.find? (fun dd => dd.trackId == some tid) with
      | none => simp [pass1One, hcur, hfind]
      | some d => simp [pass1One, hcur, hfind]
  · intro tid hcur
    simp [pass2One, hcur]
  · intro hcur href
    simp only [pass2One, hcur, href]
    cases match_bbox_to_detections s.lastBbox dets (3/10) with
    | none => rfl
    | some k =>
      dsimp only
      cases dets.get? k with
      | none => rfl
      | some d => rfl
  · intro ref m hcur href hres
    obtain ⟨tid, bb, hh⟩ := m
    simp [pass2One, hcur, href, hres]
  · intro ref hcur href hres hsel
    simp [pass2One, hcur, href, hres, if_pos hsel]
  · intro ref hcur href hres hlt
    simp [pass2One, hcur, href, hres, if_neg (not_le.mpr hlt)]
  · intro hpair hmem
    rcases hcases with heq | heq
    · rw [heq]
      exact ⟨hpair, fun m hm => le_of_lt (hmem m hm)⟩
    · rw [heq]
      constructor
      · refine List.pairwise_append.mpr ⟨hpair, List.pairwise_singleton _ _, ?_⟩
        intro a ha b hb
        rw [List.mem_singleton] at hb
        exact hb ▸ hmem a ha
      · intro m hm
        rcases List.mem_append.mp hm with h | h
        · exact le_of_lt (hmem m h)
        · rw [List.mem_singleton] at h
          exact le_of_eq h

/-- Witness for C5's theorem: a fresh bootstrap-state player over a
frame with no detections keeps its empty `missing_frames`. -/
theorem missing_frames_transitions_witness :
    (pass2One demoSqrt demoCmp 5 500 (2/5) (1/10) 0 [] demoExtract 0 []
      (initState ⟨1, "p1", demoBoxA⟩)).1.missingFrames =
    (initState ⟨1, "p1", demoBoxA⟩).missingFrames :=
  (missing_frames_transitions demoSqrt demoCmp 5 500 (2/5) (1/10) 0 []
    demoExtract 0 [] (initState ⟨1, "p1", demoBoxA⟩)).2.2.1 rfl rfl

/-- Counterexample to C5 as stated: a player whose bootstrap fails on
frame 0 (no detections, reference histogram still null) records nothing
in `missing_frames`, although the claim demands frame 0 to appear. -/
theorem missing_frames_bootstrap_gap_counterexample :
    (runStates demoSqrt demoCmp demoCfg demoSelOne [demoFrameEmpty]).map
      (fun s => s.missingFrames) = [[]] ∧
    ([] : List ℕ) ≠ [0] := by
  refine ⟨?_, by decide⟩
  norm_num [runStates, processFrame, runPass1, runPass2, pass1One, pass2One,
    match_bbox_to_detections, calculate_iou, interArea, unionArea, boxArea,
    min_def, max_def, List.enum, demoSqrt, demoCmp, demoCfg, demoSelOne,
    demoFrameEmpty, demoBoxA, demoExtract, initState, intBox, pyInt,
    updateMaxBbox, hybrid_rematch, hybridStep]

/-! ### C4: empty selection record -/

/-- The frame loop leaves an empty player list empty. -/
theorem foldl_processFrame_nil (sqrtQ : ℚ → ℚ) (cmpHist : List ℚ → List ℚ → ℚ)
    (baseSpeed maxDistanceCap simThr alpha : ℚ) (selFrame : ℕ) :
    ∀ l : List (ℕ × FrameInput),
      l.foldl (fun sts p => processFrame sqrtQ cmpHist baseSpeed maxDistanceCap
        simThr alpha selFrame p.1 p.2 sts) [] = []
  | [] => rfl
  | p :: rest => by
    rw [List.foldl_cons]
    exact foldl_processFrame_nil sqrtQ cmpHist baseSpeed maxDistanceCap
      simThr alpha selFrame rest

/-- Claim C4 (corrected): a selection record with an empty `players`
list is not rejected — `run_selective_tracking` performs no validation
before the frame loop, processes the whole frame sequence with zero
player states, and returns normally with an empty `selected_players`
output. -/
theorem empty_selection_runs_to_completion (sqrtQ : ℚ → ℚ)
    (cmpHist : List ℚ → List ℚ → ℚ) (cfg : RunConfig) (selFrame : ℕ)
    (frames : List FrameInput) :
    run_selective_tracking sqrtQ cmpHist cfg ⟨selFrame, []⟩ frames =
      .ok ⟨[]⟩ := by
  have hstates : runStates sqrtQ cmpHist cfg ⟨selFrame, []⟩ frames = [] := by
    unfold runStates
    exact foldl_processFrame_nil sqrtQ cmpHist cfg.baseSpeed cfg.maxDistanceCap
      cfg.similarityThreshold cfg.histogramEmaAlpha selFrame _
  unfold run_selective_tracking
  rw [hstates]
  rfl

/-- Counterexample to C4 as stated: the concrete empty-players record
is processed over a non-empty frame sequence and the run returns
successfully instead of raising a configuration error. -/
theorem empty_selection_no_error_counterexample :
    run_selective_tracking demoSqrt demoCmp demoCfg ⟨0, []⟩ [demoFrameMatch] =
      .ok ⟨[]⟩ := rfl

/-! ### C9: the `iou_threshold` argument -/

/-- Claim C9 (code bug): the `iou_threshold` argument of
`run_selective_tracking` is never read — two runs differing only in it
produce identical output — and with the CLI-default `0.5` the bootstrap
pass still accepts a detection of IOU exactly `1/3`, because the pass
hard-codes threshold `0.3`. -/
theorem iou_threshold_not_honored :
    (∀ (sqrtQ : ℚ → ℚ) (cmpHist : List ℚ → List ℚ → ℚ)
      (t1 t2 baseSpeed maxDistanceCap simThr alpha : ℚ)
      (maxFrames : Option ℕ) (fixed : Option (ℤ × ℤ))
      (sel : SelectionData) (frames : List FrameInput),
      run_selective_tracking sqrtQ cmpHist
        ⟨t1, baseSpeed, maxDistanceCap, simThr, alpha, maxFrames, fixed⟩ sel frames =
      run_selective_tracking sqrtQ cmpHist
        ⟨t2, baseSpeed, maxDistanceCap, simThr, alpha, maxFrames, fixed⟩ sel frames) ∧
    calculate_iou demoBoxT ⟨0, 50, 100, 150⟩ = 1/3 ∧
    ((1 : ℚ)/3 < 1/2) ∧
    (runStates demoSqrt demoCmp demoCfg demoSelT [demoFrameT]).map
      (fun s => s.currentTrackId) = [some 5] := by
  refine ⟨fun _ _ _ _ _ _ _ _ _ _ _ _ => rfl, ?_, by norm_num, ?_⟩
  · norm_num [calculate_iou, interArea, unionArea, boxArea, min_def, max_def,
      demoBoxT]
  · norm_num [runStates, processFrame, runPass1, runPass2, pass1One, pass2One,
      match_bbox_to_detections, calculate_iou, interArea, unionArea, boxArea,
      min_def, max_def, List.enum, demoSqrt, demoCmp, demoCfg, demoSelT,
      demoFrameT, demoBoxT, demoExtract, initState, intBox, pyInt,
      updateMaxBbox, hybrid_rematch, hybridStep]

end SelectiveTracker
